import Mathlib

/-!
Verification of the identifier-resolution and cascading-deletion subsystem
of the MoDEL-CNS database loader CLI.

The development shallowly embeds two parts of the repository:

* the argument-coercion layer of the CLI entrypoint (`idCoerce`,
  `accessionFormat`, `accessionCoerce`, `idOrAccessionCoerce`, and the
  per-command choice of coercion function), and
* the delete command module (`deleteFunction`), whose database side effects
  are recorded as an explicit event trace.

JavaScript strings are modelled as `List Char`; thrown JS errors are
modelled with `Except String`; absent (`undefined`) object fields are
modelled with `Option`.
-/

/-- JavaScript strings, modelled as lists of characters. -/
abbrev JStr := List Char

/-- Right half of `String.prototype.trim`: remove trailing whitespace. -/
def trimRight (l : JStr) : JStr :=
  (l.reverse.dropWhile Char.isWhitespace).reverse

/-- `String.prototype.trim`: remove leading and trailing whitespace. -/
def jsTrim (l : JStr) : JStr :=
  (trimRight l).dropWhile Char.isWhitespace

/-- `String.prototype.toUpperCase`, restricted to basic latin letters
(the only characters relevant to accession strings). -/
def jsToUpper (l : JStr) : JStr := l.map Char.toUpper

/-- Hexadecimal digit, as accepted by the mongo ObjectId constructor. -/
def isHexDigit (c : Char) : Bool :=
  c.isDigit || ('a' ≤ c && c ≤ 'f') || ('A' ≤ c && c ≤ 'F')

/-- Strings accepted by the mongodb driver's `ObjectId(string)` constructor:
a 12 character string (taken as 12 bytes) or 24 hexadecimal characters. -/
def validObjectIdString (s : JStr) : Bool :=
  s.length == 12 || (s.length == 24 && s.all isHexDigit)

/-- The value produced by the mongodb `ObjectId` constructor.  The source
warns that calling it on `null` silently generates a fresh id. -/
inductive ObjectIdValue
  | fromString (raw : JStr)
  | generated
  deriving DecidableEq

/-- `idCoerce` from the entrypoint: `const idCoerce = id => ObjectId(id);`.
On `null` the constructor generates a fresh ObjectId (the WARNING comment in
the source); on a string it validates the ObjectId string format and throws
otherwise. -/
def idCoerce : Option JStr → Except String ObjectIdValue
  | none => .ok .generated
  | some s =>
      if validObjectIdString s then .ok (.fromString s)
      else .error "Argument passed in must be a single String of 12 bytes or a string of 24 hex characters"

/-- The `accessionFormat` regular expression
`new RegExp('^' + process.env.ACCESSION_PREFIX + '\\d{5}$')`, applied to a
string: the configured deployment-specific accession sigil `pfx` followed by
exactly five decimal digits.  `pfx` is a parameter because the sigil comes
from the execution environment. -/
def accessionFormat (pfx s : JStr) : Bool :=
  s.take pfx.length == pfx && s.length == pfx.length + 5 &&
    (s.drop pfx.length).all Char.isDigit

/-- `accessionCoerce` from the entrypoint: trim and upper-case the argument,
test it against `accessionFormat`, throw `'Not a valid accession'` when the
test fails. -/
def accessionCoerce (pfx : JStr) (accession : JStr) : Except String JStr :=
  let output := jsToUpper (jsTrim accession)
  if accessionFormat pfx output then .ok output
  else .error "Not a valid accession"

/-- The two shapes a successfully coerced identifier can take. -/
inductive ResolvedId
  | mongoId (value : ObjectIdValue)
  | accession (value : JStr)
  deriving DecidableEq

/-- JavaScript truthiness of the `output` local of `idOrAccessionCoerce`:
an ObjectId object is always truthy, a string is truthy iff non-empty. -/
def jsTruthyResolvedId : ResolvedId → Bool
  | .mongoId _ => true
  | .accession v => !v.isEmpty

/-- `idOrAccessionCoerce` from the entrypoint.  `none` models a `null`
argument and `some []` the empty string; both are falsy, so the guard
`if (!idOrAccession) return null;` yields `.ok none`.  Otherwise `idCoerce`
is tried first and `accessionCoerce` only on its failure; when both throw,
the local `output` stays undefined and the fixed error
`'Invalid ID or accession'` is thrown. -/
def idOrAccessionCoerce (pfx : JStr) (idOrAccession : Option JStr) :
    Except String (Option ResolvedId) :=
  match idOrAccession with
  | none => .ok none
  | some s =>
    if s.isEmpty then .ok none
    else
      let output : Option ResolvedId :=
        match idCoerce (some s) with
        | .ok v => some (.mongoId v)
        | .error _ =>
          match accessionCoerce pfx s with
          | .ok a => some (.accession a)
          | .error _ => none
      match output with
      | some v =>
          if jsTruthyResolvedId v then .ok (some v)
          else .error "Invalid ID or accession"
      | none => .error "Invalid ID or accession"

/-- The coercion installed on the `id` positional of the `cleanup` command
(aliases `clean`, `drop`, `clear`, `delete`, `remove`): the builder passes
`coerce: idCoerce`, not `idOrAccessionCoerce`. -/
def cleanupIdCoerce : Option JStr → Except String ObjectIdValue := idCoerce

/-- The coercion installed on the `id` positional of the `unpublish` command
and the `--append` option of `load`: `coerce: idOrAccessionCoerce`. -/
def unpublishIdCoerce (pfx : JStr) :
    Option JStr → Except String (Option ResolvedId) :=
  idOrAccessionCoerce pfx

/-- Substring test: `occursIn needle hay` is true iff `needle` occurs
contiguously inside `hay`; used to state whether an error message names the
offending input. -/
def occursIn (needle : JStr) : JStr → Bool
  | [] => needle.isEmpty
  | c :: t => needle == (c :: t).take needle.length || occursIn needle t

/-- The `metadata` sub-document of a file document, with the fields the
delete module reads.  Absent fields are `none` (JS `undefined`). -/
structure FileMeta where
  project : Option String
  md : Option Int
  filename : Option String
  deriving DecidableEq

/-- A database document, with the fields the delete module reads.  Fields
that a given document does not carry are `none` (JS `undefined`). -/
structure Document where
  project : Option String
  name : Option String
  md : Option Int
  filename : Option String
  metadata : Option FileMeta
  deriving DecidableEq

/-- The value returned by `database.findId`: the collection the document
lives in (an opaque identity token) together with the document. -/
structure Target where
  collection : String
  document : Document
  deriving DecidableEq

/-- The abstract database handler consumed by the delete module: the
cross-collection lookup, the identity tokens of the analyses and the files
collections, and the human-readable collection labeller. -/
structure DB where
  findId : String → Option Target
  analyses : String
  files : String
  nameCollectionDocument : String → String

/-- Database-handler calls and console prompts, recorded in order.  The
embedded code never emits `promptWritten`: the confirmation prompt of
line 21 is unreachable because `userConfirm` is unbound. -/
inductive Event
  | promptWritten (text : String)
  | syncProject (projectId : Option String)
  | deleteAnalysis (name : Option String) (mdIndex : Option Int)
  | deleteFile (filename : Option String) (mdIndex : Option Int)
  deriving DecidableEq

/-- Terminal outcome of one run of the delete command. -/
inductive Outcome
  | done
  | notFound
  | aborted
  | referenceError (message : String)
  | typeError (message : String)
  | thrown (message : String)
  deriving DecidableEq

/-- The arguments object destructured by `deleteFunction`. -/
structure DeleteArgs where
  id : String
  confirm : Bool
  deriving DecidableEq

/-- Identifiers bound in the module scope of the delete module
(`src/commands/delete/index.js`): the Node module wrapper's parameters, the
relevant globals, and the module's own two top-level constants (`chalk`,
`deleteFunction`).  `userConfirm` is referenced on line 21 but is in none of
these. -/
def deleteModuleScope : List String :=
  ["require", "module", "exports", "__dirname", "__filename",
   "console", "Error", "chalk", "deleteFunction"]

/-- Lines 24-43 of the delete module: the kind-specific deletion protocol.
The analyses branch syncs `document.project` then deletes by
`(document.name, document.md)`.  The files branch reads
`target.document.metadata.project`, which throws a TypeError when
`metadata` is `undefined`; otherwise it syncs `metadata.project` and then
deletes by `(document.filename, metadata.md)` - note that `filename` is
read from the document itself (line 39), not from `metadata`.  Any other
collection throws the `not yet supported` error built from the
human-readable label computed on line 18. -/
def dispatch (target : Target) (db : DB) : Outcome × List Event :=
  if target.collection = db.analyses then
    (.done, [.syncProject target.document.project,
             .deleteAnalysis target.document.name target.document.md])
  else if target.collection = db.files then
    match target.document.metadata with
    | none => (.typeError "Cannot read properties of undefined", [])
    | some metadata =>
        (.done, [.syncProject metadata.project,
                 .deleteFile target.document.filename metadata.md])
  else
    (.thrown ("Deletion of " ++ db.nameCollectionDocument target.collection
        ++ " is not yet supported"), [])

/-- `deleteFunction` from the delete module.  Console logging is not
modelled.  When nothing is found for the id the run ends in `notFound`.
When the `confirm` flag is not passed, line 21 evaluates the identifier
`userConfirm`; it is not in `deleteModuleScope`, so under JS semantics the
evaluation raises `ReferenceError: userConfirm is not defined` before any
prompt is written and before any database call.  Otherwise the run proceeds
to the kind dispatch. -/
def deleteFunction (args : DeleteArgs) (db : DB) : Outcome × List Event :=
  match db.findId args.id with
  | none => (.notFound, [])
  | some target =>
    if !args.confirm then
      (.referenceError "userConfirm is not defined", [])
    else
      dispatch target db

/-! ### Helper lemmas about the character and string operations -/

theorem char_toUpper_eq (c : Char) (h : 97 ≤ c.toNat ∧ c.toNat ≤ 122) :
    Char.toUpper c = Char.ofNat (c.toNat - 32) := by
  simp only [Char.toUpper]
  rw [if_pos]
  exact ⟨h.1, h.2⟩

theorem char_toUpper_eq_self (c : Char) (h : ¬ (97 ≤ c.toNat ∧ c.toNat ≤ 122)) :
    Char.toUpper c = c := by
  simp only [Char.toUpper]
  rw [if_neg]
  intro hc
  exact h ⟨hc.1, hc.2⟩

/-- Upper-casing never changes whether a character is whitespace. -/
theorem char_ws_toUpper (c : Char) :
    (Char.toUpper c).isWhitespace = c.isWhitespace := by
  by_cases h : 97 ≤ c.toNat ∧ c.toNat ≤ 122
  · rw [char_toUpper_eq c h]
    have hc : c.isWhitespace = false := by
      simp only [Char.isWhitespace, Bool.or_eq_false_iff, decide_eq_false_iff_not]
      refine ⟨⟨⟨?_, ?_⟩, ?_⟩, ?_⟩ <;> (intro hEq; subst hEq; revert h; decide)
    rw [hc]
    have h1 : 65 ≤ c.toNat - 32 := by omega
    have h2 : c.toNat - 32 ≤ 90 := by omega
    generalize c.toNat - 32 = m at h1 h2
    interval_cases m <;> decide
  · rw [char_toUpper_eq_self c h]

/-- Upper-casing characters is idempotent. -/
theorem char_toUpper_toUpper (c : Char) :
    Char.toUpper (Char.toUpper c) = Char.toUpper c := by
  by_cases h : 97 ≤ c.toNat ∧ c.toNat ≤ 122
  · rw [char_toUpper_eq c h]
    have h1 : 65 ≤ c.toNat - 32 := by omega
    have h2 : c.toNat - 32 ≤ 90 := by omega
    generalize c.toNat - 32 = m at h1 h2
    interval_cases m <;> decide
  · rw [char_toUpper_eq_self c h]
    exact char_toUpper_eq_self c h

/-- `jsToUpper` is idempotent. -/
theorem jsToUpper_jsToUpper (l : JStr) : jsToUpper (jsToUpper l) = jsToUpper l := by
  simp only [jsToUpper, List.map_map]
  have hfun : Char.toUpper ∘ Char.toUpper = Char.toUpper :=
    funext char_toUpper_toUpper
  rw [hfun]

theorem ws_comp_toUpper :
    (Char.isWhitespace ∘ Char.toUpper) = Char.isWhitespace :=
  funext char_ws_toUpper

/-- Leading-whitespace removal commutes with upper-casing. -/
theorem dropWhile_ws_jsToUpper (l : JStr) :
    (jsToUpper l).dropWhile Char.isWhitespace =
      jsToUpper (l.dropWhile Char.isWhitespace) := by
  simp only [jsToUpper]
  rw [List.dropWhile_map, ws_comp_toUpper]

/-- Trailing-whitespace removal commutes with upper-casing. -/
theorem trimRight_jsToUpper (l : JStr) :
    trimRight (jsToUpper l) = jsToUpper (trimRight l) := by
  simp only [trimRight, jsToUpper]
  rw [← List.map_reverse, List.dropWhile_map, ws_comp_toUpper, List.map_reverse]

/-- Trimming commutes with upper-casing. -/
theorem jsTrim_jsToUpper (l : JStr) :
    jsTrim (jsToUpper l) = jsToUpper (jsTrim l) := by
  simp only [jsTrim]
  rw [trimRight_jsToUpper, dropWhile_ws_jsToUpper]

theorem dropWhile_dropWhile (p : Char → Bool) (l : JStr) :
    (l.dropWhile p).dropWhile p = l.dropWhile p := by
  induction l with
  | nil => rfl
  | cons a t ih =>
    by_cases h : p a = true
    · simp [List.dropWhile_cons, h, ih]
    · simp [List.dropWhile_cons, h]

theorem trimRight_trimRight (l : JStr) : trimRight (trimRight l) = trimRight l := by
  simp only [trimRight]
  rw [List.reverse_reverse, dropWhile_dropWhile]

/-- Unfolding equation for `trimRight` on a cons cell. -/
theorem trimRight_cons (c : Char) (t : JStr) :
    trimRight (c :: t) =
      if (trimRight t).isEmpty then (if c.isWhitespace then [] else [c])
      else c :: trimRight t := by
  simp only [trimRight, List.reverse_cons, List.dropWhile_append]
  by_cases hE : (t.reverse.dropWhile Char.isWhitespace).isEmpty = true
  · rw [if_pos hE, if_pos (by simpa using hE)]
    by_cases hc : c.isWhitespace = true
    · rw [if_pos hc]
      simp [List.dropWhile_cons, hc]
    · have hcf : c.isWhitespace = false := by simpa using hc
      rw [if_neg (by simp [hcf])]
      simp [List.dropWhile_cons, hcf]
  · rw [if_neg hE, if_neg (by simpa using hE)]
    simp

/-- Removing leading whitespace commutes with removing trailing whitespace. -/
theorem dropWhile_ws_trimRight (l : JStr) :
    (trimRight l).dropWhile Char.isWhitespace =
      trimRight (l.dropWhile Char.isWhitespace) := by
  induction l with
  | nil => rfl
  | cons c t ih =>
    rw [trimRight_cons]
    by_cases hc : c.isWhitespace = true
    · rw [List.dropWhile_cons_of_pos hc]
      by_cases hE : (trimRight t).isEmpty = true
      · rw [if_pos hE, if_pos hc]
        rw [List.isEmpty_iff] at hE
        rw [List.dropWhile_nil, ← ih, hE, List.dropWhile_nil]
      · rw [if_neg hE, List.dropWhile_cons_of_pos hc, ih]
    · have hcf : c.isWhitespace = false := by simpa using hc
      rw [List.dropWhile_cons_of_neg (by simp [hcf]), trimRight_cons]
      by_cases hE : (trimRight t).isEmpty = true
      · rw [if_pos hE, if_neg (by simp [hcf]),
          List.dropWhile_cons_of_neg (by simp [hcf])]
      · rw [if_neg hE, List.dropWhile_cons_of_neg (by simp [hcf])]

/-- Trimming is idempotent. -/
theorem jsTrim_jsTrim (l : JStr) : jsTrim (jsTrim l) = jsTrim l := by
  simp only [jsTrim]
  rw [dropWhile_ws_trimRight, dropWhile_dropWhile, dropWhile_ws_trimRight,
    trimRight_trimRight]

/-- Trailing whitespace is removed by `trimRight`. -/
theorem trimRight_append_ws (x v : JStr) (hv : ∀ c ∈ v, c.isWhitespace = true) :
    trimRight (x ++ v) = trimRight x := by
  simp only [trimRight, List.reverse_append]
  rw [List.dropWhile_append_of_pos]
  intro a ha
  exact hv a (List.mem_reverse.mp ha)

/-- Surrounding whitespace is removed by `jsTrim`. -/
theorem jsTrim_pad (w t v : JStr)
    (hw : ∀ c ∈ w, c.isWhitespace = true) (hv : ∀ c ∈ v, c.isWhitespace = true) :
    jsTrim (w ++ t ++ v) = jsTrim t := by
  simp only [jsTrim]
  rw [trimRight_append_ws (w ++ t) v hv, dropWhile_ws_trimRight,
    List.dropWhile_append_of_pos hw, ← dropWhile_ws_trimRight]

/-! ### Characterizations of the coercion functions -/

/-- A successful `accessionCoerce` returns exactly the trimmed upper-cased
input, and that output passes the `accessionFormat` test. -/
theorem accessionCoerce_ok (pfx s a : JStr) (h : accessionCoerce pfx s = .ok a) :
    a = jsToUpper (jsTrim s) ∧ accessionFormat pfx a = true := by
  simp only [accessionCoerce] at h
  split at h
  · cases h
    next hfmt => exact ⟨rfl, hfmt⟩
  · cases h

/-- What passing the `accessionFormat` test means: the string is the
configured sigil followed by five decimal digits (in particular it is
non-empty). -/
theorem accessionFormat_spec (pfx s : JStr) (h : accessionFormat pfx s = true) :
    s = pfx ++ s.drop pfx.length ∧ (s.drop pfx.length).length = 5 ∧
      (s.drop pfx.length).all Char.isDigit = true ∧ s ≠ [] := by
  simp only [accessionFormat, Bool.and_eq_true, beq_iff_eq] at h
  obtain ⟨⟨h1, h2⟩, h3⟩ := h
  refine ⟨?_, ?_, h3, ?_⟩
  · conv_lhs => rw [← List.take_append_drop pfx.length s]
    rw [h1]
  · rw [List.length_drop, h2]
    omega
  · intro h0
    rw [h0] at h2
    simp at h2

/-- A successful `accessionCoerce` output is a fixed point of trimming and
of upper-casing. -/
theorem accessionCoerce_fixed (pfx s a : JStr)
    (h : accessionCoerce pfx s = .ok a) :
    jsTrim a = a ∧ jsToUpper a = a := by
  obtain ⟨ha, hfmt⟩ := accessionCoerce_ok pfx s a h
  subst ha
  constructor
  · rw [jsTrim_jsToUpper, jsTrim_jsTrim]
  · rw [jsToUpper_jsToUpper]

/-- Unfolding of `idOrAccessionCoerce` on a non-empty string: `idCoerce`
decides first, `accessionCoerce` second, and the fixed
`'Invalid ID or accession'` error is thrown when both fail. -/
theorem idOrAccessionCoerce_some (pfx s : JStr) (hne : s ≠ []) :
    idOrAccessionCoerce pfx (some s) =
      if validObjectIdString s then .ok (some (.mongoId (.fromString s)))
      else if accessionFormat pfx (jsToUpper (jsTrim s)) then
        .ok (some (.accession (jsToUpper (jsTrim s))))
      else .error "Invalid ID or accession" := by
  have hsE : ¬ s.isEmpty = true := by
    simp [List.isEmpty_iff, hne]
  simp only [idOrAccessionCoerce]
  rw [if_neg hsE]
  by_cases hv : validObjectIdString s = true
  · simp only [idCoerce]
    rw [if_pos hv, if_pos hv]
    rfl
  · simp only [idCoerce]
    rw [if_neg hv, if_neg hv]
    simp only [accessionCoerce]
    by_cases hf : accessionFormat pfx (jsToUpper (jsTrim s)) = true
    · rw [if_pos hf, if_pos hf]
      have hne2 : jsToUpper (jsTrim s) ≠ [] :=
        (accessionFormat_spec pfx _ hf).2.2.2
      have htruthy : jsTruthyResolvedId (.accession (jsToUpper (jsTrim s))) = true := by
        simp [jsTruthyResolvedId, List.isEmpty_iff, hne2]
      simp [htruthy]
    · rw [if_neg hf, if_neg hf]

/-! ### Claims about the identifier resolver -/

/-- C9: accession inputs that differ only in letter case or in
leading/trailing whitespace coerce to the same normalized accession, and
coercing an already-normalized accession (a successful coercion output)
returns it unchanged. -/
theorem accessionCoerce_normalization (pfx w1 t1 v1 w2 t2 v2 : JStr)
    (hw1 : ∀ c ∈ w1, c.isWhitespace = true) (hv1 : ∀ c ∈ v1, c.isWhitespace = true)
    (hw2 : ∀ c ∈ w2, c.isWhitespace = true) (hv2 : ∀ c ∈ v2, c.isWhitespace = true)
    (hcase : jsToUpper t1 = jsToUpper t2) :
    accessionCoerce pfx (w1 ++ t1 ++ v1) = accessionCoerce pfx (w2 ++ t2 ++ v2) ∧
    ∀ a, accessionCoerce pfx (w1 ++ t1 ++ v1) = .ok a →
      accessionCoerce pfx a = .ok a := by
  have hout : jsToUpper (jsTrim (w1 ++ t1 ++ v1)) =
      jsToUpper (jsTrim (w2 ++ t2 ++ v2)) := by
    rw [jsTrim_pad w1 t1 v1 hw1 hv1, jsTrim_pad w2 t2 v2 hw2 hv2,
      ← jsTrim_jsToUpper, hcase, jsTrim_jsToUpper]
  constructor
  · simp only [accessionCoerce, hout]
  · intro a h
    obtain ⟨ha, hfmt⟩ := accessionCoerce_ok pfx _ a h
    obtain ⟨htr, hup⟩ := accessionCoerce_fixed pfx _ a h
    simp only [accessionCoerce, htr, hup]
    rw [if_pos hfmt]

/-- Witness for C9 at concrete inputs: `"  mcNS00001"` and `"MCns00001  "`
normalize identically, and re-coercing the normalized `"MCNS00001"` is the
identity. -/
theorem accessionCoerce_normalization_witness :
    accessionCoerce "MCNS".toList
        ("  ".toList ++ "mcNS00001".toList ++ "".toList) =
      accessionCoerce "MCNS".toList
        ("".toList ++ "MCns00001".toList ++ "  ".toList) ∧
    accessionCoerce "MCNS".toList "MCNS00001".toList = .ok "MCNS00001".toList := by
  have h := accessionCoerce_normalization "MCNS".toList
    "  ".toList "mcNS00001".toList "".toList
    "".toList "MCns00001".toList "  ".toList
    (by decide) (by decide) (by decide) (by decide) (by decide)
  exact ⟨h.1, h.2 "MCNS00001".toList rfl⟩

/-- C6 counterexample: when both coercions fail, the thrown error carries the
fixed message `'Invalid ID or accession'`, which does not contain the
original input `"!!"`. -/
theorem invalidIdMessage_cex :
    idOrAccessionCoerce "MCNS".toList (some "!!".toList) =
      .error "Invalid ID or accession" ∧
    occursIn "!!".toList "Invalid ID or accession".toList = false :=
  ⟨rfl, by decide⟩

/-- C6 (amended): for a non-empty input the resolver tries raw-id coercion
first and accession coercion only on its failure; when both fail it throws
the fixed error message `'Invalid ID or accession'` (which does not name the
input). -/
theorem idOrAccessionCoerce_order (pfx s : JStr) (hne : s ≠ []) :
    (validObjectIdString s = true →
      idOrAccessionCoerce pfx (some s) = .ok (some (.mongoId (.fromString s)))) ∧
    (validObjectIdString s = false → ∀ a, accessionCoerce pfx s = .ok a →
      idOrAccessionCoerce pfx (some s) = .ok (some (.accession a))) ∧
    (validObjectIdString s = false →
      accessionFormat pfx (jsToUpper (jsTrim s)) = false →
      idOrAccessionCoerce pfx (some s) = .error "Invalid ID or accession") := by
  rw [idOrAccessionCoerce_some pfx s hne]
  refine ⟨?_, ?_, ?_⟩
  · intro hv
    rw [if_pos hv]
  · intro hv a ha
    obtain ⟨haeq, hfmt⟩ := accessionCoerce_ok pfx s a ha
    rw [if_neg (by simp [hv]), ← haeq, if_pos hfmt]
  · intro hv hf
    rw [if_neg (by simp [hv]), if_neg (by simp [hf])]

/-- Witness for C6 at concrete inputs exercising all three branches: a
24-hex raw id, an accession needing normalization, and an input failing
both coercions. -/
theorem idOrAccessionCoerce_order_witness :
    idOrAccessionCoerce "MCNS".toList (some "507f1f77bcf86cd799439011".toList) =
      .ok (some (.mongoId (.fromString "507f1f77bcf86cd799439011".toList))) ∧
    idOrAccessionCoerce "MCNS".toList (some " mcns00002 ".toList) =
      .ok (some (.accession "MCNS00002".toList)) ∧
    idOrAccessionCoerce "MCNS".toList (some "zzz".toList) =
      .error "Invalid ID or accession" :=
  ⟨(idOrAccessionCoerce_order "MCNS".toList "507f1f77bcf86cd799439011".toList
      (by decide)).1 (by decide),
   (idOrAccessionCoerce_order "MCNS".toList " mcns00002 ".toList
      (by decide)).2.1 (by decide) "MCNS00002".toList rfl,
   (idOrAccessionCoerce_order "MCNS".toList "zzz".toList
      (by decide)).2.2 (by decide) (by decide)⟩

/-- C10: a non-null resolver result is either an ObjectId constructed from
the input or a normalized accession (the configured sigil followed by
exactly five digits, fixed under upper-casing); null or empty input yields
null without an error. -/
theorem idOrAccessionCoerce_shapes (pfx s : JStr) (v : ResolvedId)
    (h : idOrAccessionCoerce pfx (some s) = .ok (some v)) :
    idOrAccessionCoerce pfx none = .ok none ∧
    idOrAccessionCoerce pfx (some []) = .ok none ∧
    ((∃ raw, v = .mongoId (.fromString raw) ∧ validObjectIdString raw = true ∧
        raw = s) ∨
     (∃ d, v = .accession (pfx ++ d) ∧ d.length = 5 ∧
        d.all Char.isDigit = true ∧ jsToUpper (pfx ++ d) = pfx ++ d)) := by
  refine ⟨rfl, rfl, ?_⟩
  have hne : s ≠ [] := by
    intro h0
    subst h0
    simp [idOrAccessionCoerce] at h
  rw [idOrAccessionCoerce_some pfx s hne] at h
  by_cases hv : validObjectIdString s = true
  · rw [if_pos hv] at h
    left
    simp only [Except.ok.injEq, Option.some.injEq] at h
    exact ⟨s, h.symm, hv, rfl⟩
  · rw [if_neg hv] at h
    by_cases hf : accessionFormat pfx (jsToUpper (jsTrim s)) = true
    · rw [if_pos hf] at h
      right
      simp only [Except.ok.injEq, Option.some.injEq] at h
      obtain ⟨heq, hlen, hdig, _⟩ := accessionFormat_spec pfx _ hf
      refine ⟨(jsToUpper (jsTrim s)).drop pfx.length, ?_, hlen, hdig, ?_⟩
      · rw [← heq]
        exact h.symm
      · rw [← heq]
        rw [jsToUpper_jsToUpper]
    · rw [if_neg hf] at h
      cases h

/-- Witness for C10: the accession path at `" mcns00001 "` and the raw-id
path at a 24-hex id. -/
theorem idOrAccessionCoerce_shapes_witness :
    idOrAccessionCoerce "MCNS".toList none = .ok none ∧
    idOrAccessionCoerce "MCNS".toList (some []) = .ok none ∧
    ((∃ raw, ResolvedId.accession "MCNS00001".toList =
        .mongoId (.fromString raw) ∧ validObjectIdString raw = true ∧
        raw = " mcns00001 ".toList) ∨
     (∃ d, ResolvedId.accession "MCNS00001".toList = .accession ("MCNS".toList ++ d) ∧
        d.length = 5 ∧ d.all Char.isDigit = true ∧
        jsToUpper ("MCNS".toList ++ d) = "MCNS".toList ++ d)) :=
  idOrAccessionCoerce_shapes "MCNS".toList " mcns00001 ".toList
    (.accession "MCNS00001".toList) rfl

/-- C2 counterexample: `"MCNS00001"` is accession-shaped, but the coercion
installed on the cleanup command's id positional is `idCoerce`, which
rejects it, so the cleanup command never proceeds to locate a document for
an accession. -/
theorem cleanup_accession_cex :
    accessionFormat "MCNS".toList "MCNS00001".toList = true ∧
    cleanupIdCoerce (some "MCNS00001".toList) =
      .error "Argument passed in must be a single String of 12 bytes or a string of 24 hex characters" :=
  ⟨by decide, rfl⟩

/-- C2 (amended): the cleanup command's id coercion accepts only raw
ObjectId-shaped strings and throws on accession-shaped input, while the
resolver used by `unpublish` and `load --append` (`idOrAccessionCoerce`)
accepts the same accession-shaped input. -/
theorem cleanup_raw_id_only (pfx s : JStr)
    (hacc : accessionFormat pfx s = true)
    (hv : validObjectIdString s = false)
    (ht : jsTrim s = s) (hu : jsToUpper s = s) :
    cleanupIdCoerce (some s) =
      .error "Argument passed in must be a single String of 12 bytes or a string of 24 hex characters" ∧
    unpublishIdCoerce pfx (some s) = .ok (some (.accession s)) := by
  constructor
  · simp only [cleanupIdCoerce, idCoerce]
    rw [if_neg (by simp [hv])]
  · have hne : s ≠ [] := (accessionFormat_spec pfx s hacc).2.2.2
    simp only [unpublishIdCoerce]
    rw [idOrAccessionCoerce_some pfx s hne, if_neg (by simp [hv]), ht, hu,
      if_pos hacc]

/-- Witness for C2 (amended) at the accession `"MCNS00001"`. -/
theorem cleanup_raw_id_only_witness :
    cleanupIdCoerce (some "MCNS00001".toList) =
      .error "Argument passed in must be a single String of 12 bytes or a string of 24 hex characters" ∧
    unpublishIdCoerce "MCNS".toList (some "MCNS00001".toList) =
      .ok (some (.accession "MCNS00001".toList)) :=
  cleanup_raw_id_only "MCNS".toList "MCNS00001".toList
    (by decide) (by decide) (by decide) (by decide)

/-! ### Claims about the deletion dispatcher and the delete command -/

/-- C5: for a located target in the analyses collection, the deletion
protocol calls `syncProject document.project` first and
`deleteAnalysis (document.name, document.md)` second, and nothing else. -/
theorem dispatch_analysis (t : Target) (db : DB)
    (h : t.collection = db.analyses) :
    dispatch t db =
      (.done, [.syncProject t.document.project,
               .deleteAnalysis t.document.name t.document.md]) := by
  unfold dispatch
  rw [if_pos h]

/-- Witness for C5 at the document `{name: "md.rmsd", md: 1, project: "P1"}`:
the calls are `syncProject "P1"` then `deleteAnalysis ("md.rmsd", 1)`. -/
theorem dispatch_analysis_witness :
    dispatch ⟨"analyses", ⟨some "P1", some "md.rmsd", some 1, none, none⟩⟩
        ⟨fun _ => none, "analyses", "fs.files", fun _ => "analysis"⟩ =
      (.done, [.syncProject (some "P1"),
               .deleteAnalysis (some "md.rmsd") (some 1)]) :=
  dispatch_analysis _ _ rfl

/-- C1 counterexample: a file document whose `metadata` is exactly
`{filename: "traj.xtc", md: 2, project: "P2"}` but whose top-level
`filename` is `"other.pdb"`: the code deletes by the top-level filename,
not by `metadata.filename`, so the claimed trace does not occur. -/
theorem file_filename_source_cex :
    dispatch ⟨"fs.files", ⟨none, none, none, some "other.pdb",
          some ⟨some "P2", some 2, some "traj.xtc"⟩⟩⟩
        ⟨fun _ => none, "analyses", "fs.files", fun _ => "file"⟩ =
      (.done, [.syncProject (some "P2"),
               .deleteFile (some "other.pdb") (some 2)]) ∧
    (dispatch ⟨"fs.files", ⟨none, none, none, some "other.pdb",
          some ⟨some "P2", some 2, some "traj.xtc"⟩⟩⟩
        ⟨fun _ => none, "analyses", "fs.files", fun _ => "file"⟩).2 ≠
      [.syncProject (some "P2"), .deleteFile (some "traj.xtc") (some 2)] :=
  ⟨rfl, by decide⟩

/-- C1 (amended): for a located target in the files collection carrying a
metadata sub-document, the protocol calls `syncProject metadata.project`
first and then `deleteFile (document.filename, metadata.md)` - the filename
comes from the document itself, the md index from its metadata. -/
theorem dispatch_file (t : Target) (db : DB) (m : FileMeta)
    (hna : ¬ t.collection = db.analyses) (hf : t.collection = db.files)
    (hm : t.document.metadata = some m) :
    dispatch t db =
      (.done, [.syncProject m.project,
               .deleteFile t.document.filename m.md]) := by
  unfold dispatch
  rw [if_neg hna, if_pos hf, hm]

/-- Witness for C1 (amended) at a file document with top-level
`filename: "traj.xtc"` and `metadata = {md: 2, project: "P2"}`. -/
theorem dispatch_file_witness :
    dispatch ⟨"fs.files", ⟨none, none, none, some "traj.xtc",
          some ⟨some "P2", some 2, none⟩⟩⟩
        ⟨fun _ => none, "analyses", "fs.files", fun _ => "file"⟩ =
      (.done, [.syncProject (some "P2"),
               .deleteFile (some "traj.xtc") (some 2)]) :=
  dispatch_file _ _ ⟨some "P2", some 2, none⟩ (by decide) rfl rfl

/-- C4: for a located target in neither the analyses nor the files
collection, the dispatcher throws an error naming the collection's
human-readable document label and performs no sync or delete call (the
trace is empty). -/
theorem dispatch_unsupported (t : Target) (db : DB)
    (hna : ¬ t.collection = db.analyses) (hnf : ¬ t.collection = db.files) :
    dispatch t db =
      (.thrown ("Deletion of " ++ db.nameCollectionDocument t.collection ++
        " is not yet supported"), []) := by
  unfold dispatch
  rw [if_neg hna, if_neg hnf]

/-- Witness for C4 at a target in a projects collection. -/
theorem dispatch_unsupported_witness :
    dispatch ⟨"projects", ⟨none, none, none, none, none⟩⟩
        ⟨fun _ => none, "analyses", "fs.files", fun _ => "project"⟩ =
      (.thrown "Deletion of project is not yet supported", []) :=
  dispatch_unsupported _ _ (by decide) (by decide)

/-- C3: the identifier `userConfirm` is bound nowhere in the delete module,
so for every found target, when the confirm flag is not set the run fails
with a ReferenceError and an empty trace: no prompt is written and no
sync or delete call is made. -/
theorem userConfirm_unbound (args : DeleteArgs) (db : DB) (t : Target)
    (hfound : db.findId args.id = some t) (hconf : args.confirm = false) :
    deleteModuleScope.contains "userConfirm" = false ∧
    deleteFunction args db =
      (.referenceError "userConfirm is not defined", []) := by
  refine ⟨by decide, ?_⟩
  unfold deleteFunction
  rw [hfound, hconf]
  rfl

/-- Witness for C3 at a concrete found analysis target with the confirm
flag unset. -/
theorem userConfirm_unbound_witness :
    deleteModuleScope.contains "userConfirm" = false ∧
    deleteFunction ⟨"5f1a2b3c4d5e6f7a8b9c0d1e", false⟩
        ⟨fun _ => some ⟨"analyses", ⟨some "P1", some "rmsd", some 0, none, none⟩⟩,
         "analyses", "fs.files", fun _ => "analysis"⟩ =
      (.referenceError "userConfirm is not defined", []) :=
  userConfirm_unbound ⟨"5f1a2b3c4d5e6f7a8b9c0d1e", false⟩
    ⟨fun _ => some ⟨"analyses", ⟨some "P1", some "rmsd", some 0, none, none⟩⟩,
     "analyses", "fs.files", fun _ => "analysis"⟩
    ⟨"analyses", ⟨some "P1", some "rmsd", some 0, none, none⟩⟩ rfl rfl

/-- C7 evaluation at the failing input: a found file target, confirm flag
unset, operator ready to answer `"n"`: instead of prompting and aborting,
the run crashes with a ReferenceError (no prompt, no sync, no delete). -/
theorem confirm_gate_crash :
    deleteFunction ⟨"abc123abc123", false⟩
        ⟨fun _ => some ⟨"fs.files", ⟨none, none, none, some "t.xtc",
             some ⟨some "P9", some 0, none⟩⟩⟩,
         "analyses", "fs.files", fun _ => "file"⟩ =
      (.referenceError "userConfirm is not defined", []) := rfl

/-- The dispatcher never writes a confirmation prompt. -/
theorem dispatch_no_prompt (t : Target) (db : DB) (msg : String) :
    Event.promptWritten msg ∉ (dispatch t db).2 := by
  unfold dispatch
  by_cases h1 : t.collection = db.analyses
  · rw [if_pos h1]
    simp
  · rw [if_neg h1]
    by_cases h2 : t.collection = db.files
    · rw [if_pos h2]
      cases t.document.metadata with
      | none => simp
      | some m => simp
    · rw [if_neg h2]
      simp

/-- C8: when the skip-confirmation flag is set, the confirmation gate is
not invoked: the run of `deleteFunction` is exactly the kind dispatch on
the located target, and no prompt event ever appears in the trace. -/
theorem skip_confirmation_direct (args : DeleteArgs) (db : DB) (t : Target)
    (hfound : db.findId args.id = some t) (hconf : args.confirm = true) :
    deleteFunction args db = dispatch t db ∧
    ∀ msg, Event.promptWritten msg ∉ (deleteFunction args db).2 := by
  have hrun : deleteFunction args db = dispatch t db := by
    unfold deleteFunction
    rw [hfound, hconf]
    rfl
  refine ⟨hrun, ?_⟩
  rw [hrun]
  intro msg
  exact dispatch_no_prompt t db msg

/-- Witness for C8 at a concrete found analysis target with the confirm
flag set. -/
theorem skip_confirmation_direct_witness :
    deleteFunction ⟨"5f1a2b3c4d5e6f7a8b9c0d1f", true⟩
        ⟨fun _ => some ⟨"analyses", ⟨some "P3", some "rgyr", some 2, none, none⟩⟩,
         "analyses", "fs.files", fun _ => "analysis"⟩ =
      dispatch ⟨"analyses", ⟨some "P3", some "rgyr", some 2, none, none⟩⟩
        ⟨fun _ => some ⟨"analyses", ⟨some "P3", some "rgyr", some 2, none, none⟩⟩,
         "analyses", "fs.files", fun _ => "analysis"⟩ ∧
    Event.promptWritten "Confirm deletion" ∉
      (deleteFunction ⟨"5f1a2b3c4d5e6f7a8b9c0d1f", true⟩
        ⟨fun _ => some ⟨"analyses", ⟨some "P3", some "rgyr", some 2, none, none⟩⟩,
         "analyses", "fs.files", fun _ => "analysis"⟩).2 :=
  ⟨(skip_confirmation_direct ⟨"5f1a2b3c4d5e6f7a8b9c0d1f", true⟩
      ⟨fun _ => some ⟨"analyses", ⟨some "P3", some "rgyr", some 2, none, none⟩⟩,
       "analyses", "fs.files", fun _ => "analysis"⟩
      ⟨"analyses", ⟨some "P3", some "rgyr", some 2, none, none⟩⟩ rfl rfl).1,
   (skip_confirmation_direct ⟨"5f1a2b3c4d5e6f7a8b9c0d1f", true⟩
      ⟨fun _ => some ⟨"analyses", ⟨some "P3", some "rgyr", some 2, none, none⟩⟩,
       "analyses", "fs.files", fun _ => "analysis"⟩
      ⟨"analyses", ⟨some "P3", some "rgyr", some 2, none, none⟩⟩ rfl rfl).2
      "Confirm deletion"⟩
